import Mathlib

/-!
# BudgetGuide: verification of the transaction pipeline (`budget_editor.py`)

Shallow embedding of the core pipeline of `budget_editor.py`:
`filter_transactions`, `add_employment_income`, `compute_summary`.

Modelling decisions, matching the source:
* a pandas row is a `Transaction` with `Date`, `Description`, `Amount` cells;
  a missing / NaN / NaT cell is `none` (NaN compares false under `<` and `>`,
  so `none` amounts are excluded from both sums, exactly as in pandas);
* amounts and the income figure are exact rationals (`ℚ`); the Python floats
  `0.50`, `0.30`, `0.20` are modelled by the decimal literals they denote;
* `Series.str.contains(pat, case=False, na=False)` is regex search
  (`regex=True` is the pandas default) with `re.IGNORECASE`, and `False` on a
  missing cell.  The engine `regexSearch` below models Python `re.search` on
  the fragment of the pattern language relevant here: top-level alternation
  `|` (this is what `"|".join(bad_keywords)` produces), the start anchor `^`
  at the head of an alternative, the wildcard `.`, and literal characters
  compared case-insensitively via ASCII lowering.  Patterns built only from
  characters that are not Python-regex metacharacters (`litKw`) behave exactly
  as case-insensitive literal substring search, in the engine as in Python.
-/

/-- A pandas row: `Date`, `Description`, `Amount`; `none` is NaN/NaT. -/
structure Transaction where
  date : Option String
  description : Option String
  amount : Option ℚ
deriving DecidableEq, Repr

/-- A pandas DataFrame of transactions, as an ordered sequence of rows. -/
abbrev Ledger := List Transaction

/-! ## The regex-search engine behind `Series.str.contains` -/

/-- Does the pattern fragment `ps` match a prefix of `ss`?  A pattern
character `.` matches any character; any other pattern character matches
case-insensitively (`re.IGNORECASE`, ASCII lowering). -/
def matchSeq : List Char → List Char → Bool
  | [], _ => true
  | _ :: _, [] => false
  | p :: ps, c :: cs => (p == '.' || p.toLower == c.toLower) && matchSeq ps cs

/-- Does the pattern fragment `ps` match starting at some position of `ss`
(the unanchored search of `re.search`)? -/
def searchSeq (ps : List Char) : List Char → Bool
  | [] => matchSeq ps []
  | c :: cs => matchSeq ps (c :: cs) || searchSeq ps cs

/-- Match one alternative of the pattern: a leading `^` anchors the match at
the start of the string, otherwise the match floats (`re.search`). -/
def altMatch : List Char → List Char → Bool
  | [], s => searchSeq [] s
  | p :: ps, s => if p == '^' then matchSeq ps s else searchSeq (p :: ps) s

/-- Split a pattern at top-level `|` into its alternatives; the empty pattern
has a single empty alternative (which matches everything, as in `re`).
Returns the first alternative and the remaining ones. -/
def splitAltsAux : List Char → List Char × List (List Char)
  | [] => ([], [])
  | c :: cs =>
    let r := splitAltsAux cs
    if c == '|' then ([], r.1 :: r.2) else (c :: r.1, r.2)

/-- All alternatives of a pattern. -/
def splitAlts (l : List Char) : List (List Char) :=
  (splitAltsAux l).1 :: (splitAltsAux l).2

/-- `re.search(pat, s, re.IGNORECASE)` as a Boolean, on the pattern fragment
described above: some alternative matches somewhere in `s`. -/
def regexSearch (pat s : List Char) : Bool :=
  (splitAlts pat).any (fun alt => altMatch alt s)

/-- One cell of `df["Description"].str.contains(pat, case=False, na=False)`:
`False` on a missing description, otherwise a regex search. -/
def str_contains (desc : Option String) (pat : List Char) : Bool :=
  match desc with
  | none => false
  | some d => regexSearch pat d.data

/-- `"|".join(bad_keywords)`. -/
def joinBar : List String → List Char
  | [] => []
  | [k] => k.data
  | k :: ks => k.data ++ '|' :: joinBar ks

/-! ## The three pipeline stages -/

/-- `filter_transactions(df, centrelink_keyword, bad_keywords)`: drop the rows
whose `Description` matches `centrelink_keyword`, then the rows whose
`Description` matches `"|".join(bad_keywords)`.  The two logged removal counts
(`before - len(df)` at each pass) are returned alongside the revised frame. -/
def filter_transactions (df : Ledger) (centrelink_keyword : String)
    (bad_keywords : List String) : Ledger × Nat × Nat :=
  let df1 := df.filter (fun t => !str_contains t.description centrelink_keyword.data)
  let removedCentrelink := df.length - df1.length
  let df2 := df1.filter (fun t => !str_contains t.description (joinBar bad_keywords))
  let removedBad := df1.length - df2.length
  (df2, removedCentrelink, removedBad)

/-- `add_employment_income(df, income)`: if no `Description` matches
`"Employment Income"` (case-insensitively), prepend the synthetic row
`{Date: NaT, Description: "Employment Income", Amount: income}`; otherwise
return the frame unchanged. -/
def add_employment_income (df : Ledger) (income : ℚ) : Ledger :=
  if !(df.any (fun t => str_contains t.description "Employment Income".data)) then
    ⟨none, some "Employment Income", some income⟩ :: df
  else
    df

/-- `df[df["Amount"] > 0]` membership: NaN amounts compare false. -/
def amountPos (t : Transaction) : Bool :=
  match t.amount with
  | some a => decide (0 < a)
  | none => false

/-- `df[df["Amount"] < 0]` membership: NaN amounts compare false. -/
def amountNeg (t : Transaction) : Bool :=
  match t.amount with
  | some a => decide (a < 0)
  | none => false

/-- `df["Amount"].sum()` over the rows of `df` (missing amounts count 0;
the sums below only ever apply this to rows with a present amount). -/
def sumAmounts (df : Ledger) : ℚ :=
  (df.map (fun t => t.amount.getD 0)).sum

/-- The `recommended` sub-dictionary of the summary. -/
structure Recommended where
  needs : ℚ
  wants : ℚ
  savings : ℚ
deriving DecidableEq, Repr

/-- The summary dictionary produced by `compute_summary`. -/
structure Summary where
  full_time_income : ℚ
  total_income : ℚ
  total_expenses : ℚ
  balance : ℚ
  recommended : Recommended
deriving DecidableEq, Repr

/-- `compute_summary(df, full_income)`: totals over the frame, and the
50/30/20 allocations from the user-supplied income figure. -/
def compute_summary (df : Ledger) (full_income : ℚ) : Summary :=
  let total_income := sumAmounts (df.filter amountPos)
  let total_expenses := sumAmounts (df.filter amountNeg)
  let balance := total_income + total_expenses
  { full_time_income := full_income
    total_income := total_income
    total_expenses := total_expenses
    balance := balance
    recommended :=
      { needs := full_income * 0.50
        wants := full_income * 0.30
        savings := full_income * 0.20 } }

/-! ## Spec-side predicates

These follow the specification's words ("the description case-insensitively
contains the keyword as a substring"), to be compared with the source-side
regex matching. -/

/-- Case-insensitive prefix test on character lists (ASCII lowering). -/
def isPrefixCI : List Char → List Char → Bool
  | [], _ => true
  | _ :: _, [] => false
  | a :: as, b :: bs => (a.toLower == b.toLower) && isPrefixCI as bs

/-- Case-insensitive substring test on character lists. -/
def substrCI (ns : List Char) : List Char → Bool
  | [] => isPrefixCI ns []
  | c :: cs => isPrefixCI ns (c :: cs) || substrCI ns cs

/-- Spec notion: `needle` occurs case-insensitively as a substring of `hay`. -/
def containsCI (needle hay : String) : Bool :=
  substrCI needle.data hay.data

/-- Python-regex metacharacters.  (`Char.ofNat 123`/`125` are the curly
braces.) -/
def regexMeta (c : Char) : Bool :=
  c == '^' || c == '.' || c == '|' || c == '$' || c == '*' || c == '+' ||
  c == '?' || c == '(' || c == ')' || c == '[' || c == ']' || c == '\\' ||
  c == Char.ofNat 123 || c == Char.ofNat 125

/-- A keyword free of regex metacharacters: on such keywords the regex search
of `str.contains` is exactly case-insensitive substring search. -/
def litKw (k : String) : Bool :=
  k.data.all (fun c => !regexMeta c)

/-- Spec notion ("sum over all transactions with `amount > 0`"). -/
def posAmountsSum (df : Ledger) : ℚ :=
  ((df.filterMap Transaction.amount).filter (fun a => decide (0 < a))).sum

/-- Spec notion ("sum over all transactions with `amount < 0`"). -/
def negAmountsSum (df : Ledger) : ℚ :=
  ((df.filterMap Transaction.amount).filter (fun a => decide (a < 0))).sum

/-! ## Literal keywords: regex search is substring search -/

theorem regexMeta_spec {c : Char} (h : regexMeta c = false) :
    (c == '^') = false ∧ (c == '.') = false ∧ (c == '|') = false := by
  refine ⟨?_, ?_, ?_⟩ <;>
  · by_contra hc
    simp only [ne_eq, Bool.not_eq_false] at hc
    simp [regexMeta, hc] at h

theorem matchSeq_eq_isPrefixCI (ps : List Char)
    (h : ∀ c ∈ ps, regexMeta c = false) (ss : List Char) :
    matchSeq ps ss = isPrefixCI ps ss := by
  revert h
  induction ps generalizing ss with
  | nil => intro h; cases ss <;> rfl
  | cons p pt ih =>
    intro h
    cases ss with
    | nil => rfl
    | cons c cs =>
      have hp := (regexMeta_spec (h p (by simp))).2.1
      simp [matchSeq, isPrefixCI, hp, ih cs (fun d hd => h d (by simp [hd]))]

theorem searchSeq_eq_substrCI (ps : List Char)
    (h : ∀ c ∈ ps, regexMeta c = false) (ss : List Char) :
    searchSeq ps ss = substrCI ps ss := by
  induction ss with
  | nil => simp [searchSeq, substrCI, matchSeq_eq_isPrefixCI ps h]
  | cons c cs ih => simp [searchSeq, substrCI, matchSeq_eq_isPrefixCI ps h, ih]

theorem altMatch_eq_substrCI (ps : List Char)
    (h : ∀ c ∈ ps, regexMeta c = false) (ss : List Char) :
    altMatch ps ss = substrCI ps ss := by
  cases ps with
  | nil => simpa [altMatch] using searchSeq_eq_substrCI [] (by simp) ss
  | cons p pt =>
    have hp := (regexMeta_spec (h p (by simp))).1
    simp [altMatch, hp, searchSeq_eq_substrCI _ h ss]

theorem splitAltsAux_noBar (l : List Char) (h : ∀ c ∈ l, (c == '|') = false) :
    splitAltsAux l = (l, []) := by
  revert h
  induction l with
  | nil => intro h; rfl
  | cons c cs ih =>
    intro h
    simp [splitAltsAux, h c (by simp), ih (fun d hd => h d (by simp [hd]))]

theorem regexSearch_litKw (k : String) (h : litKw k = true) (s : List Char) :
    regexSearch k.data s = substrCI k.data s := by
  have hmeta : ∀ c ∈ k.data, regexMeta c = false := by
    simpa [litKw, List.all_eq_true] using h
  have hbar : ∀ c ∈ k.data, (c == '|') = false :=
    fun c hc => (regexMeta_spec (hmeta c hc)).2.2
  simp [regexSearch, splitAlts, splitAltsAux_noBar k.data hbar,
        altMatch_eq_substrCI _ hmeta]

theorem splitAltsAux_append (a l : List Char) (h : ∀ c ∈ a, (c == '|') = false) :
    splitAltsAux (a ++ l) = (a ++ (splitAltsAux l).1, (splitAltsAux l).2) := by
  revert h
  induction a with
  | nil => intro h; simp
  | cons c cs ih =>
    intro h
    simp [splitAltsAux, h c (by simp), ih (fun d hd => h d (by simp [hd]))]

theorem splitAlts_joinBar (bks : List String) (hne : bks ≠ [])
    (h : ∀ k ∈ bks, ∀ c ∈ k.data, (c == '|') = false) :
    splitAlts (joinBar bks) = bks.map String.data := by
  revert hne h
  induction bks with
  | nil => intro hne h; exact absurd rfl hne
  | cons k ks ih =>
    intro hne h
    cases ks with
    | nil => simp [joinBar, splitAlts, splitAltsAux_noBar k.data (h k (by simp))]
    | cons k2 ks2 =>
      have hk : ∀ c ∈ k.data, (c == '|') = false := h k (by simp)
      have hrest := ih (by simp) (fun k0 hk0 => h k0 (by simp [hk0]))
      have h1 := splitAltsAux_append k.data ('|' :: joinBar (k2 :: ks2)) hk
      have h2 : splitAltsAux ('|' :: joinBar (k2 :: ks2)) =
          ([], (splitAltsAux (joinBar (k2 :: ks2))).1 ::
               (splitAltsAux (joinBar (k2 :: ks2))).2) := by
        simp [splitAltsAux]
      have h3 : splitAlts (k.data ++ '|' :: joinBar (k2 :: ks2)) =
          k.data :: splitAlts (joinBar (k2 :: ks2)) := by
        simp [splitAlts, h1, h2]
      have h4 : joinBar (k :: k2 :: ks2) = k.data ++ '|' :: joinBar (k2 :: ks2) := rfl
      rw [h4, h3, hrest]
      simp

theorem any_map_congr (bks : List String) (f : List Char → Bool) (g : String → Bool)
    (h : ∀ k ∈ bks, f k.data = g k) :
    (bks.map String.data).any f = bks.any g := by
  revert h
  induction bks with
  | nil => intro h; rfl
  | cons k ks ih =>
    intro h
    simp only [List.map_cons, List.any_cons, h k (by simp),
               ih (fun y hy => h y (by simp [hy]))]

theorem regexSearch_joinBar (bks : List String) (hne : bks ≠ [])
    (h : ∀ k ∈ bks, litKw k = true) (s : List Char) :
    regexSearch (joinBar bks) s = bks.any (fun k => substrCI k.data s) := by
  have hmeta : ∀ k ∈ bks, ∀ c ∈ k.data, regexMeta c = false := by
    intro k hk
    have := h k hk
    simpa [litKw, List.all_eq_true] using this
  have hbar : ∀ k ∈ bks, ∀ c ∈ k.data, (c == '|') = false :=
    fun k hk c hc => (regexMeta_spec (hmeta k hk c hc)).2.2
  rw [regexSearch, splitAlts_joinBar bks hne hbar]
  exact any_map_congr bks _ _
    (fun k hk => altMatch_eq_substrCI k.data (hmeta k hk) s)

/-! ## Case-folding the needle does not change `substrCI` -/

theorem isPrefixCI_congr (ns ms : List Char)
    (h : ns.map Char.toLower = ms.map Char.toLower) (hs : List Char) :
    isPrefixCI ns hs = isPrefixCI ms hs := by
  revert h
  induction ns generalizing ms hs with
  | nil =>
    intro h
    cases ms with
    | nil => rfl
    | cons b bs => simp at h
  | cons a as ih =>
    intro h
    cases ms with
    | nil => simp at h
    | cons b bs =>
      simp only [List.map_cons, List.cons.injEq] at h
      cases hs with
      | nil => rfl
      | cons c cs => simp [isPrefixCI, h.1, ih bs cs h.2]

theorem substrCI_congr (ns ms : List Char)
    (h : ns.map Char.toLower = ms.map Char.toLower) (hs : List Char) :
    substrCI ns hs = substrCI ms hs := by
  induction hs with
  | nil => simp [substrCI, isPrefixCI_congr ns ms h]
  | cons c cs ih => simp [substrCI, isPrefixCI_congr ns ms h, ih]

/-! ## Unfolding and bridging lemmas -/

theorem filter_transactions_eq (df : Ledger) (ck : String) (bks : List String) :
    filter_transactions df ck bks =
      ((df.filter (fun t => !str_contains t.description ck.data)).filter
          (fun t => !str_contains t.description (joinBar bks)),
        df.length -
          (df.filter (fun t => !str_contains t.description ck.data)).length,
        (df.filter (fun t => !str_contains t.description ck.data)).length -
          ((df.filter (fun t => !str_contains t.description ck.data)).filter
            (fun t => !str_contains t.description (joinBar bks))).length) := rfl

/-- Spec notion: the transaction is an employment-income entry (its
description, case-insensitively, contains "employment income"; an absent
description never matches). -/
def isEmploymentIncome (t : Transaction) : Bool :=
  match t.description with
  | none => false
  | some d => containsCI "employment income" d

/-- The scan of `add_employment_income` (regex search for
`"Employment Income"`, `case=False`, `na=False`) is exactly the spec's
case-insensitive containment of "employment income". -/
theorem empPred_eq :
    (fun t : Transaction => str_contains t.description "Employment Income".data)
      = isEmploymentIncome := by
  funext t
  rcases t with ⟨dt, ds, amt⟩
  cases ds with
  | none => rfl
  | some s =>
    have h1 := regexSearch_litKw "Employment Income" (by decide) s.data
    have h2 := substrCI_congr "Employment Income".data "employment income".data
      (by decide) s.data
    simp [str_contains, isEmploymentIncome, containsCI, h1, h2]

example : regexSearch "bad|fraud".data "Coffee - FRAUD charge".data = true := by decide
example : regexSearch "^a".data "b^a".data = false := by decide
example : containsCI "^a" "b^a" = true := by decide
example : regexSearch (joinBar []) "Coffee".data = true := by decide
example : str_contains none "anything".data = false := by rfl
example :
    filter_transactions
      [⟨some "2024-01-01", some "Centrelink Payment", some 300⟩,
       ⟨some "2024-01-02", some "Coffee - fraud charge", some (-10)⟩,
       ⟨some "2024-01-03", some "Groceries", some (-50)⟩]
      "Centrelink" ["bad", "fraud", "error"] =
    ([⟨some "2024-01-03", some "Groceries", some (-50)⟩], 1, 1) := by decide

/-! ## Claims -/

/-- C1 is false as stated: `str.contains` treats keywords as regular
expressions (the pandas default), so for the exclusion keyword `"^a"` the
transaction described `"b^a"` — whose description case-insensitively contains
`"^a"` as a substring — is NOT removed (`^` anchors the regex match at the
start of the string). -/
theorem C1_counterexample :
    (filter_transactions [⟨some "2024-01-05", some "b^a", some (-5)⟩]
        "^a" ["zzz"]).1
      = [⟨some "2024-01-05", some "b^a", some (-5)⟩] ∧
    containsCI "^a" "b^a" = true := by decide

/-- C1 (amended): for every ledger and for keywords free of Python-regex
metacharacters, every transaction remaining after `filter_transactions` has a
description that does not case-insensitively contain the exclusion keyword
nor any disqualifying keyword as a substring, and conversely every
transaction whose description case-insensitively contains one of them as a
substring is removed. -/
theorem C1_filter_correct (df : Ledger) (ck : String) (bks : List String)
    (hck : litKw ck = true) (hbks : ∀ k ∈ bks, litKw k = true) :
    (∀ t ∈ (filter_transactions df ck bks).1, ∀ d : String,
        t.description = some d →
        containsCI ck d = false ∧ ∀ k ∈ bks, containsCI k d = false) ∧
    (∀ t ∈ df, ∀ d : String, t.description = some d →
        (containsCI ck d = true ∨ ∃ k ∈ bks, containsCI k d = true) →
        t ∉ (filter_transactions df ck bks).1) := by
  have hfst : (filter_transactions df ck bks).1 =
      (df.filter (fun t => !str_contains t.description ck.data)).filter
        (fun t => !str_contains t.description (joinBar bks)) := rfl
  constructor
  · intro t ht d hd
    rw [hfst] at ht
    have h2 := List.mem_filter.mp ht
    have h1 := List.mem_filter.mp h2.1
    have hck0 : str_contains t.description ck.data = false := by
      simpa using h1.2
    have hbk0 : str_contains t.description (joinBar bks) = false := by
      simpa using h2.2
    rw [hd] at hck0 hbk0
    simp only [str_contains] at hck0 hbk0
    constructor
    · rw [containsCI, ← regexSearch_litKw ck hck d.data]
      exact hck0
    · intro k hk
      have hne : bks ≠ [] := by
        intro hh
        rw [hh] at hk
        exact absurd hk (List.not_mem_nil k)
      rw [regexSearch_joinBar bks hne hbks d.data] at hbk0
      have hall := List.any_eq_false.mp hbk0 k hk
      rw [containsCI]
      simpa using hall
  · intro t htdf d hd hmatch hmem
    rw [hfst] at hmem
    have h2 := List.mem_filter.mp hmem
    have h1 := List.mem_filter.mp h2.1
    have hck0 : str_contains t.description ck.data = false := by
      simpa using h1.2
    have hbk0 : str_contains t.description (joinBar bks) = false := by
      simpa using h2.2
    rw [hd] at hck0 hbk0
    simp only [str_contains] at hck0 hbk0
    rcases hmatch with hc | ⟨k, hk, hsub⟩
    · rw [containsCI] at hc
      rw [regexSearch_litKw ck hck d.data, hc] at hck0
      cases hck0
    · have hne : bks ≠ [] := by
        intro hh
        rw [hh] at hk
        exact absurd hk (List.not_mem_nil k)
      rw [regexSearch_joinBar bks hne hbks d.data] at hbk0
      rw [containsCI] at hsub
      have : bks.any (fun k => substrCI k.data d.data) = true :=
        List.any_eq_true.mpr ⟨k, hk, hsub⟩
      rw [this] at hbk0
      cases hbk0

/-- Witness for C1 at a concrete input: the "fraud" row of scenario A is
removed by the default keywords. -/
theorem C1_filter_correct_witness :
    (⟨some "2024-01-02", some "Coffee - fraud charge", some (-10)⟩ :
        Transaction) ∉
      (filter_transactions
        [⟨some "2024-01-02", some "Coffee - fraud charge", some (-10)⟩]
        "Centrelink" ["bad", "fraud", "error"]).1 :=
  (C1_filter_correct _ "Centrelink" ["bad", "fraud", "error"] (by decide)
      (by decide)).2 _ (by simp) "Coffee - fraud charge" rfl
      (Or.inr ⟨"fraud", by simp, by decide⟩)

/-- C2: evaluating the code at the failing input.  With an empty
disqualifying-keyword list, `"|".join([])` is the empty pattern, which the
regex search matches against every non-null description; the
disqualification pass therefore removes the (perfectly innocent) Groceries
row: the pass's removal count is 1, not 0, and its output is empty rather
than equal to its input. -/
theorem C2_empty_bad_keywords_eval :
    filter_transactions [⟨some "2024-01-03", some "Groceries", some (-50)⟩]
        "Centrelink" []
      = ([], 0, 1) := by decide

/-- C3 is false as stated (the spec's own scenario B): for a ledger already
holding an `("", "Employment Income", 3500)` row and user income 4000, the
normalization stage leaves the ledger unchanged — there is exactly one
employment-income entry, but its amount is the pre-existing 3500, not the
user-supplied 4000. -/
theorem C3_counterexample :
    add_employment_income [⟨some "", some "Employment Income", some 3500⟩] 4000
        = [⟨some "", some "Employment Income", some 3500⟩] ∧
    ([⟨some "", some "Employment Income", some 3500⟩] : Ledger).countP
        isEmploymentIncome = 1 ∧
    (⟨some "", some "Employment Income", some 3500⟩ : Transaction).amount
        ≠ some 4000 := by decide

/-- C3 (amended): after the income-normalization stage the ledger contains at
least one employment-income entry; when the input ledger contains none, the
output contains exactly one and that entry's amount equals the user-supplied
income.  (When the input already contains such entries, the ledger — and in
particular their amounts and multiplicity — is untouched; see C4.) -/
theorem C3_income_normalization (df : Ledger) (income : ℚ) :
    1 ≤ (add_employment_income df income).countP isEmploymentIncome ∧
    (df.countP isEmploymentIncome = 0 →
      (add_employment_income df income).countP isEmploymentIncome = 1 ∧
      ∀ t ∈ add_employment_income df income, isEmploymentIncome t = true →
        t.amount = some income) := by
  have hnew : isEmploymentIncome
      (⟨none, some "Employment Income", some income⟩ : Transaction) = true := rfl
  rcases hany : df.any isEmploymentIncome with _ | _
  · have hout : add_employment_income df income =
        ⟨none, some "Employment Income", some income⟩ :: df := by
      rw [add_employment_income, empPred_eq, hany]
      rfl
    have hzero : df.countP isEmploymentIncome = 0 :=
      List.countP_eq_zero.mpr (List.any_eq_false.mp hany)
    have hone : (add_employment_income df income).countP isEmploymentIncome
        = 1 := by
      rw [hout, List.countP_cons, hnew, hzero]
      simp
    refine ⟨by rw [hone], fun _ => ⟨hone, ?_⟩⟩
    intro t ht hemp
    rw [hout] at ht
    rcases List.mem_cons.mp ht with rfl | hmem
    · rfl
    · exact absurd hemp (List.any_eq_false.mp hany t hmem)
  · have hout : add_employment_income df income = df := by
      rw [add_employment_income, empPred_eq, hany]
      rfl
    have hpos : 0 < df.countP isEmploymentIncome := by
      rw [List.countP_pos_iff]
      exact List.any_eq_true.mp hany
    refine ⟨by rw [hout]; exact hpos, ?_⟩
    intro hzero
    rw [hzero] at hpos
    exact absurd hpos (by simp)

/-- Witness for C3 at the empty ledger: normalizing `[]` with income 7 yields
exactly one employment-income entry. -/
theorem C3_income_normalization_witness :
    (add_employment_income [] 7).countP isEmploymentIncome = 1 :=
  ((C3_income_normalization [] 7).2 (by decide)).1

/-- C4: if no transaction's description case-insensitively contains
"employment income", the normalizer prepends exactly the row
`⟨null, "Employment Income", incomeAmount⟩` ahead of the unchanged input (so
the existing rows keep their relative order); if at least one such
transaction exists, the ledger is returned unchanged. -/
theorem C4_ensureIncome (df : Ledger) (income : ℚ) :
    ((∀ t ∈ df, isEmploymentIncome t = false) →
        add_employment_income df income =
          ⟨none, some "Employment Income", some income⟩ :: df) ∧
    ((∃ t ∈ df, isEmploymentIncome t = true) →
        add_employment_income df income = df) := by
  constructor
  · intro hnone
    have hany : df.any isEmploymentIncome = false := by
      rw [List.any_eq_false]
      intro a ha
      simp [hnone a ha]
    rw [add_employment_income, empPred_eq, hany]
    rfl
  · intro hsome
    have hany : df.any isEmploymentIncome = true := List.any_eq_true.mpr hsome
    rw [add_employment_income, empPred_eq, hany]
    rfl

/-- Witness for C4 at concrete inputs: the Groceries-only ledger gets the
synthetic row prepended; scenario B's ledger is returned unchanged. -/
theorem C4_ensureIncome_witness :
    add_employment_income [⟨some "2024-01-03", some "Groceries", some (-50)⟩]
        4000 =
      ⟨none, some "Employment Income", some 4000⟩ ::
        [⟨some "2024-01-03", some "Groceries", some (-50)⟩] ∧
    add_employment_income [⟨some "", some "Employment Income", some 3500⟩]
        4000 =
      [⟨some "", some "Employment Income", some 3500⟩] :=
  ⟨(C4_ensureIncome _ 4000).1 (by decide),
   (C4_ensureIncome _ 4000).2 (by decide)⟩

/-- C5: a transaction with an absent description matches no pattern in any of
the passes (`na=False`), is never an employment-income match, and is retained
by filtering.  (All embedded operations are total Lean functions, so no run
of the pipeline can raise on such inputs.) -/
theorem C5_null_description (df : Ledger) (ck : String) (bks : List String)
    (t : Transaction) (ht : t ∈ df) (hd : t.description = none) :
    (∀ pat : List Char, str_contains t.description pat = false) ∧
    isEmploymentIncome t = false ∧
    t ∈ (filter_transactions df ck bks).1 := by
  have hsc : ∀ pat : List Char, str_contains t.description pat = false := by
    intro pat
    rw [hd]
    rfl
  refine ⟨hsc, by rw [isEmploymentIncome, hd], ?_⟩
  have hfst : (filter_transactions df ck bks).1 =
      (df.filter (fun t => !str_contains t.description ck.data)).filter
        (fun t => !str_contains t.description (joinBar bks)) := rfl
  rw [hfst]
  exact List.mem_filter.mpr
    ⟨List.mem_filter.mpr ⟨ht, by simp [hsc]⟩, by simp [hsc]⟩

/-- Witness for C5 at a concrete input: a date-and-amount-only row survives
filtering with the default keywords. -/
theorem C5_null_description_witness :
    (⟨some "2024-01-09", none, some 12⟩ : Transaction) ∈
      (filter_transactions [⟨some "2024-01-09", none, some 12⟩] "Centrelink"
        ["bad", "fraud", "error"]).1 :=
  (C5_null_description _ "Centrelink" ["bad", "fraud", "error"] _ (by simp)
    rfl).2.2

/-! ## Sum lemmas for the summary calculator -/

theorem map_filter_pos (df : Ledger) :
    (df.filter amountPos).map (fun t => t.amount.getD 0) =
      (df.filterMap Transaction.amount).filter (fun a => decide (0 < a)) := by
  induction df with
  | nil => rfl
  | cons t ts ih =>
    rcases ht : t.amount with _ | a
    · have hp : amountPos t = false := by rw [amountPos, ht]
      simp [List.filter_cons, List.filterMap_cons, ht, hp, ih]
    · have hp : amountPos t = decide (0 < a) := by rw [amountPos, ht]
      by_cases ha : (0 : ℚ) < a
      · simp [List.filter_cons, List.filterMap_cons, ht, hp, ha, ih]
      · simp [List.filter_cons, List.filterMap_cons, ht, hp, ha, ih]

theorem map_filter_neg (df : Ledger) :
    (df.filter amountNeg).map (fun t => t.amount.getD 0) =
      (df.filterMap Transaction.amount).filter (fun a => decide (a < 0)) := by
  induction df with
  | nil => rfl
  | cons t ts ih =>
    rcases ht : t.amount with _ | a
    · have hp : amountNeg t = false := by rw [amountNeg, ht]
      simp [List.filter_cons, List.filterMap_cons, ht, hp, ih]
    · have hp : amountNeg t = decide (a < 0) := by rw [amountNeg, ht]
      by_cases ha : a < (0 : ℚ)
      · simp [List.filter_cons, List.filterMap_cons, ht, hp, ha, ih]
      · simp [List.filter_cons, List.filterMap_cons, ht, hp, ha, ih]

theorem sumAmounts_filter_pos (df : Ledger) :
    sumAmounts (df.filter amountPos) = posAmountsSum df := by
  rw [sumAmounts, map_filter_pos df]
  rfl

theorem sumAmounts_filter_neg (df : Ledger) :
    sumAmounts (df.filter amountNeg) = negAmountsSum df := by
  rw [sumAmounts, map_filter_neg df]
  rfl

theorem posAmountsSum_nonneg (df : Ledger) : 0 ≤ posAmountsSum df := by
  apply List.sum_nonneg
  intro a ha
  have := (List.mem_filter.mp ha).2
  have h0 : (0 : ℚ) < a := of_decide_eq_true this
  exact le_of_lt h0

theorem sum_nonpos_mem (l : List ℚ) (h : ∀ a ∈ l, a ≤ 0) : l.sum ≤ 0 := by
  revert h
  induction l with
  | nil => intro h; simp
  | cons x xs ih =>
    intro h
    rw [List.sum_cons]
    have hx := h x (by simp)
    have hxs := ih (fun a ha => h a (by simp [ha]))
    linarith

theorem negAmountsSum_nonpos (df : Ledger) : negAmountsSum df ≤ 0 := by
  rw [negAmountsSum]
  apply sum_nonpos_mem
  intro a ha
  exact le_of_lt (of_decide_eq_true (List.mem_filter.mp ha).2)

/-- C6: `compute_summary` returns `total_income` equal to the sum of the
positive amounts, `total_expenses` equal to the sum of the negative amounts
(so `total_expenses ≤ 0 ≤ total_income`), and
`balance = total_income + total_expenses`; on the empty ledger all three are
zero. -/
theorem C6_summary_totals (df : Ledger) (inc : ℚ) :
    (compute_summary df inc).total_income = posAmountsSum df ∧
    (compute_summary df inc).total_expenses = negAmountsSum df ∧
    (compute_summary df inc).total_expenses ≤ 0 ∧
    0 ≤ (compute_summary df inc).total_income ∧
    (compute_summary df inc).balance =
      (compute_summary df inc).total_income +
        (compute_summary df inc).total_expenses ∧
    (compute_summary ([] : Ledger) inc).total_income = 0 ∧
    (compute_summary ([] : Ledger) inc).total_expenses = 0 ∧
    (compute_summary ([] : Ledger) inc).balance = 0 := by
  have hti : (compute_summary df inc).total_income =
      sumAmounts (df.filter amountPos) := rfl
  have hte : (compute_summary df inc).total_expenses =
      sumAmounts (df.filter amountNeg) := rfl
  refine ⟨by rw [hti, sumAmounts_filter_pos],
          by rw [hte, sumAmounts_filter_neg],
          by rw [hte, sumAmounts_filter_neg]; exact negAmountsSum_nonpos df,
          by rw [hti, sumAmounts_filter_pos]; exact posAmountsSum_nonneg df,
          rfl, rfl, rfl, ?_⟩
  show (0 : ℚ) + 0 = 0
  norm_num

/-- C7: the recommended allocations are 50%/30%/20% of the user-supplied
income figure (not of the ledger's totals), they sum to exactly that figure,
and they are wholly independent of the ledger. -/
theorem C7_recommended (df df2 : Ledger) (inc : ℚ) :
    (compute_summary df inc).recommended.needs = 0.50 * inc ∧
    (compute_summary df inc).recommended.wants = 0.30 * inc ∧
    (compute_summary df inc).recommended.savings = 0.20 * inc ∧
    (compute_summary df inc).recommended.needs +
        (compute_summary df inc).recommended.wants +
        (compute_summary df inc).recommended.savings = inc ∧
    (compute_summary df inc).recommended =
      (compute_summary df2 inc).recommended := by
  have hn : (compute_summary df inc).recommended.needs = inc * 0.50 := rfl
  have hw : (compute_summary df inc).recommended.wants = inc * 0.30 := rfl
  have hs : (compute_summary df inc).recommended.savings = inc * 0.20 := rfl
  refine ⟨by rw [hn, mul_comm], by rw [hw, mul_comm], by rw [hs, mul_comm],
          ?_, rfl⟩
  rw [hn, hw, hs]
  have h1 : (0.50 : ℚ) + 0.30 + 0.20 = 1 := by norm_num
  calc inc * 0.50 + inc * 0.30 + inc * 0.20
      = inc * (0.50 + 0.30 + 0.20) := by ring
    _ = inc * 1 := by rw [h1]
    _ = inc := mul_one inc

/-- C8: the income normalizer is idempotent — applying it twice with the same
income yields the same ledger as applying it once (the first application
guarantees a matching row, so the second never adds one). -/
theorem C8_normalizer_idempotent (df : Ledger) (income : ℚ) :
    add_employment_income (add_employment_income df income) income =
      add_employment_income df income := by
  rcases hany : df.any
      (fun t => str_contains t.description "Employment Income".data)
    with _ | _
  · have h1 : add_employment_income df income =
        ⟨none, some "Employment Income", some income⟩ :: df := by
      rw [add_employment_income, hany]
      rfl
    have hnew : str_contains (some "Employment Income")
        "Employment Income".data = true := by decide
    rw [h1, add_employment_income]
    simp [List.any_cons, hnew]
  · have h1 : add_employment_income df income = df := by
      rw [add_employment_income, hany]
      rfl
    rw [h1, add_employment_income, hany]
    rfl

/-- C9: the filter is idempotent — re-filtering an already-filtered ledger
with the same keyword arguments removes nothing: both removal counts are 0
and the ledger is returned unchanged. -/
theorem C9_filter_idempotent (df : Ledger) (ck : String) (bks : List String) :
    filter_transactions (filter_transactions df ck bks).1 ck bks =
      ((filter_transactions df ck bks).1, 0, 0) := by
  have hfst : (filter_transactions df ck bks).1 =
      (df.filter (fun t => !str_contains t.description ck.data)).filter
        (fun t => !str_contains t.description (joinBar bks)) := rfl
  have hp1 : ∀ a ∈ (filter_transactions df ck bks).1,
      (!str_contains a.description ck.data) = true := by
    intro a ha
    rw [hfst] at ha
    exact (List.mem_filter.mp (List.mem_filter.mp ha).1).2
  have hp2 : ∀ a ∈ (filter_transactions df ck bks).1,
      (!str_contains a.description (joinBar bks)) = true := by
    intro a ha
    rw [hfst] at ha
    exact (List.mem_filter.mp ha).2
  have h1 : (filter_transactions df ck bks).1.filter
        (fun t => !str_contains t.description ck.data) =
      (filter_transactions df ck bks).1 := List.filter_eq_self.mpr hp1
  have h2 : (filter_transactions df ck bks).1.filter
        (fun t => !str_contains t.description (joinBar bks)) =
      (filter_transactions df ck bks).1 := List.filter_eq_self.mpr hp2
  rw [filter_transactions_eq ((filter_transactions df ck bks).1) ck bks,
      h1, h2, Nat.sub_self]

/-- C10 (frame property): the filtered ledger is an order-preserving
subsequence of the input — every retained transaction is the very same record
(`date`, `description`, `amount` unchanged) in the original relative order —
and the two removal counts plus the output length add up to the input
length. -/
theorem C10_filter_frame (df : Ledger) (ck : String) (bks : List String) :
    List.Sublist (filter_transactions df ck bks).1 df ∧
    (filter_transactions df ck bks).2.1 + (filter_transactions df ck bks).2.2 +
        (filter_transactions df ck bks).1.length = df.length := by
  have hfst : (filter_transactions df ck bks).1 =
      (df.filter (fun t => !str_contains t.description ck.data)).filter
        (fun t => !str_contains t.description (joinBar bks)) := rfl
  have hr1 : (filter_transactions df ck bks).2.1 =
      df.length -
        (df.filter (fun t => !str_contains t.description ck.data)).length :=
    rfl
  have hr2 : (filter_transactions df ck bks).2.2 =
      (df.filter (fun t => !str_contains t.description ck.data)).length -
        ((df.filter (fun t => !str_contains t.description ck.data)).filter
          (fun t => !str_contains t.description (joinBar bks))).length := rfl
  have hlen1 : (df.filter
      (fun t => !str_contains t.description ck.data)).length ≤ df.length :=
    (List.filter_sublist df).length_le
  have hlen2 : ((df.filter (fun t => !str_contains t.description ck.data)).filter
        (fun t => !str_contains t.description (joinBar bks))).length ≤
      (df.filter (fun t => !str_contains t.description ck.data)).length :=
    (List.filter_sublist _).length_le
  constructor
  · rw [hfst]
    exact (List.filter_sublist _).trans (List.filter_sublist df)
  · rw [hfst, hr1, hr2]
    omega
